import Mathlib

/- Verification of the numeric-cleaning utilities in `main.py`: the scalar
parser `anystring_to_float`, the column-coercion routine `change_df`, and the
command-line column tokenizer `_parse_columns_arg`.

Modelling conventions.  Python values reaching these functions are embedded as
`Scalar` (None, float, int, str) and `Value` (a scalar, or a list of scalars —
the fragment of Python's value universe the claims exercise).  Python floats
are modelled exactly: a float is NaN, a signed infinity, or a finite value
`m * 10^e` held as an exact normalized decimal (`10 ∤ m` unless `m = 0`);
every float this program constructs comes from a decimal digit string, so the
decimal-pair model is exact on the reachable values (binary rounding and the
sign of -0.0 are not tracked).  Exceptions are explicit: fallible operations
return `Except PyExn _`. -/

set_option maxRecDepth 100000
set_option exponentiation.threshold 1100

namespace UClean

/- Model of a Python float: `nan`, a signed infinity, or a finite value
`m * 10^e` (normalized decimal pair). -/
inductive PyFloat where
  | nan : PyFloat
  | inf (neg : Bool) : PyFloat
  | finite (m : ℤ) (e : ℤ) : PyFloat
deriving DecidableEq, Repr

/- A scalar Python value: `None`, a float, an int, or a string. -/
inductive Scalar where
  | pyNone : Scalar
  | float (f : PyFloat) : Scalar
  | int (n : ℤ) : Scalar
  | str (s : String) : Scalar
deriving DecidableEq, Repr

/- A Python value passed to `anystring_to_float`: a scalar, or a list of
scalars (the array-like case that exercises `pd.isna`'s array semantics). -/
inductive Value where
  | scalar (x : Scalar) : Value
  | list (xs : List Scalar) : Value
deriving DecidableEq, Repr

/- The exceptions this code can raise.  `indexError` carries the offending
index and the column count (source interpolates both into its message);
`keyError` carries the offending name and the first five available names. -/
inductive PyExn where
  | valueError : PyExn
  | indexError (idx : ℤ) (ncols : ℕ) : PyExn
  | keyError (nm : String) (available : List String) : PyExn
deriving DecidableEq, Repr

deriving instance DecidableEq for Except

/- `pd.isna` on one scalar: True exactly for `None` and float NaN. -/
def scalarIsna : Scalar → Bool
  | .pyNone => true
  | .float .nan => true
  | _ => false

/- Truth value of `pd.isna(value)` as used in `if value is None or
pd.isna(value):`.  On a scalar, `pd.isna` returns a bool.  On a list,
`pd.isna` returns an element-wise boolean ndarray, and Python's truth test of
an ndarray raises `ValueError` ("truth value of an array ... is ambiguous")
unless the array has exactly one element. -/
def isnaTruthy : Value → Except PyExn Bool
  | .scalar x => .ok (scalarIsna x)
  | .list [x] => .ok (scalarIsna x)
  | .list _ => .error .valueError

/- Numeric value of a list of decimal digit characters. -/
def digitsVal (cs : List Char) : ℕ :=
  cs.foldl (fun a c => a * 10 + (c.toNat - 48)) 0

/- Two-digit-minimum rendering of a float-repr exponent ("05", "16", "100"). -/
def pad2 (n : ℕ) : String :=
  if n < 10 then "0" ++ Nat.repr n else Nat.repr n

/- CPython repr/str of a finite float with exact decimal value `m * 10^e`
(`m` normalized).  Fixed notation when the leading digit sits at a decimal
position in [-4, 16); otherwise scientific notation `d.ddde±EE`.  Integral
values in fixed notation carry a trailing ".0" (`repr(1200.0) = "1200.0"`). -/
def pyFloatRepr (m e : ℤ) : String :=
  if m = 0 then "0.0" else
  let sign := if m < 0 then "-" else ""
  let D := Nat.repr m.natAbs
  let E : ℤ := (D.length : ℤ) - 1 + e
  if -4 ≤ E ∧ E < 16 then
    if 0 ≤ e then
      sign ++ D ++ String.mk (List.replicate e.toNat '0') ++ ".0"
    else
      let k := (-e).toNat
      if k < D.length then
        sign ++ String.mk (D.data.take (D.length - k)) ++ "." ++
          String.mk (D.data.drop (D.length - k))
      else
        sign ++ "0." ++ String.mk (List.replicate (k - D.length) '0') ++ D
  else
    let mant :=
      if D.length = 1 then D
      else String.mk (D.data.take 1) ++ "." ++ String.mk (D.data.drop 1)
    sign ++ mant ++ (if E < 0 then "e-" else "e+") ++ pad2 E.natAbs

/- Python `str()` of a scalar (str and repr coincide for the cases reached). -/
def pyStrScalar : Scalar → String
  | .pyNone => "None"
  | .int n => if n < 0 then "-" ++ Nat.repr n.natAbs else Nat.repr n.natAbs
  | .str s => s
  | .float .nan => "nan"
  | .float (.inf neg) => if neg then "-inf" else "inf"
  | .float (.finite m e) => pyFloatRepr m e

/- Python `repr()` of a scalar, as used for elements inside `str(list)`. -/
def pyReprScalar : Scalar → String
  | .str s => "'" ++ s ++ "'"
  | x => pyStrScalar x

/- Python `str()` of a value. -/
def pyStr : Value → String
  | .scalar x => pyStrScalar x
  | .list xs => "[" ++ String.intercalate ", " (xs.map pyReprScalar) ++ "]"

/- Strip trailing decimal zeros of a nonzero mantissa (fuel-driven; the fuel
`m.natAbs` bounds the number of trailing zeros). -/
def stripTZ : ℕ → ℤ → ℤ → ℤ × ℤ
  | 0, m, e => (m, e)
  | f + 1, m, e => if m % 10 = 0 then stripTZ f (m / 10) (e + 1) else (m, e)

/- Normalized finite float from a decimal pair. -/
def mkFinite (m e : ℤ) : PyFloat :=
  if m = 0 then .finite 0 0
  else
    let p := stripTZ m.natAbs m e
    .finite p.1 p.2

/- Split the digit characters at the (at most one) decimal point. -/
def splitAtDot (cs : List Char) : List Char × List Char :=
  ((cs.takeWhile (fun c => c ≠ '.')), (cs.dropWhile (fun c => c ≠ '.')).drop 1)

/- Exact decimal value (mantissa, exponent) of a cleaned buffer: an optional
leading minus, digits, and at most one decimal point. -/
def decOfCleaned (s : List Char) : ℤ × ℤ :=
  let (neg, cs) :=
    match s with
    | '-' :: rest => (true, rest)
    | cs => (false, cs)
  let (ip, fp) := splitAtDot cs
  let mNat : ℤ := (digitsVal (ip ++ fp) : ℤ)
  ((if neg then -mNat else mNat), -(fp.length : ℤ))

/- Smallest magnitude a decimal value may have and still convert to a double
infinity: 2^1024 - 2^970 (round-to-nearest-even overflow threshold). -/
def dblOverflow : ℕ := 2 ^ 1024 - 2 ^ 970

/- Python `float()` on a cleaned buffer.  The exact decimal value is computed;
magnitudes at or beyond the double overflow threshold give an infinity (CPython
`float()` on a decimal string never raises there — strtod saturates), smaller
values stay finite and are kept exact. -/
def pyFloatOfCleaned (s : List Char) : PyFloat :=
  let p := decOfCleaned s
  let ov : Bool :=
    if 0 ≤ p.2 then decide (dblOverflow ≤ p.1.natAbs * 10 ^ p.2.toNat)
    else decide (dblOverflow * 10 ^ (-p.2).toNat ≤ p.1.natAbs)
  if ov then .inf (p.1 < 0) else mkFinite p.1 p.2

/- The character scan of `anystring_to_float` (source lines 105-118): keep
digits; keep the first decimal point; keep a minus only while `allow_minus`
is still true; drop everything else.  Every consumed character clears
`allow_minus`.  (Python's `ch.isdigit()` also accepts some non-ASCII digit
characters; the claims only exercise ASCII, which `Char.isDigit` matches.) -/
def scanLoop : List Char → Bool → Bool → List Char
  | [], _, _ => []
  | c :: rest, dotSeen, allowMinus =>
    if c.isDigit then c :: scanLoop rest dotSeen false
    else if c = '.' && !dotSeen then c :: scanLoop rest true false
    else if c = '-' && allowMinus then c :: scanLoop rest dotSeen false
    else scanLoop rest dotSeen false

/- Python `str.strip()` on a character list: drop whitespace from both ends.
(Python also strips a few rarer whitespace characters, e.g. vertical tab and
Unicode spaces, which the claims never exercise.) -/
def pyStrip (cs : List Char) : List Char :=
  ((cs.dropWhile Char.isWhitespace).reverse.dropWhile Char.isWhitespace).reverse

/- The string-processing tail of `anystring_to_float` (source lines 96-130):
strip, empty check, scan, degenerate-buffer guard, float conversion. -/
def parseString (s : String) : PyFloat :=
  let t := pyStrip s.data
  if t.isEmpty then .nan
  else
    let cleaned := scanLoop t false true
    if cleaned = [] ∨ cleaned = ['-'] ∨ cleaned = ['.'] ∨ cleaned = ['-', '.']
    then .nan
    else pyFloatOfCleaned cleaned

/- `anystring_to_float` (source lines 51-130).  The `None`/NA test runs first;
its truth test can itself raise (see `isnaTruthy`).  NaN plays the role of the
returned `np.nan`. -/
def anystring_to_float (v : Value) : Except PyExn PyFloat :=
  match isnaTruthy v with
  | .error e => .error e
  | .ok true => .ok .nan
  | .ok false => .ok (parseString (pyStr v))

/- Total scalar-level parse: on scalars `anystring_to_float` never raises and
computes exactly this (proved in `anystring_scalar_ok`). -/
def scalarFloat (x : Scalar) : PyFloat :=
  if scalarIsna x then .nan else parseString (pyStrScalar x)

theorem anystring_scalar_ok (x : Scalar) :
    anystring_to_float (.scalar x) = .ok (scalarFloat x) := by
  cases hx : scalarIsna x <;>
    simp [anystring_to_float, isnaTruthy, scalarFloat, hx, pyStr]

/- A command-line column reference: a zero-based (possibly negative) integer
position, or a column name. -/
inductive ColRef where
  | int (c : ℤ) : ColRef
  | name (s : String) : ColRef
deriving DecidableEq, Repr

/- Python `"".join`-free helper: `v.lstrip('-')` drops every leading minus. -/
def lstripMinus (s : String) : String :=
  String.mk (s.data.dropWhile (fun c => c = '-'))

/- Python `str.isdigit` on the characters of a token: nonempty and all digits
(ASCII fragment; see `scanLoop`). -/
def pyIsdigit (s : String) : Bool :=
  !s.data.isEmpty && s.data.all (fun c => c.isDigit)

/- Python `int()` on the token strings this program feeds it: one optional
sign followed by one or more digits succeeds; anything else (in particular a
repeated sign) raises `ValueError`.  (Surrounding whitespace and underscore
separators never reach this call and are not modelled.) -/
def pyIntOfString (s : String) : Except PyExn ℤ :=
  match s.data with
  | '-' :: rest =>
    if !rest.isEmpty && rest.all (fun c => c.isDigit) then
      .ok (-(digitsVal rest : ℤ))
    else .error .valueError
  | '+' :: rest =>
    if !rest.isEmpty && rest.all (fun c => c.isDigit) then
      .ok (digitsVal rest : ℤ)
    else .error .valueError
  | cs =>
    if !cs.isEmpty && cs.all (fun c => c.isDigit) then
      .ok (digitsVal cs : ℤ)
    else .error .valueError

/- `_parse_columns_arg` (source lines 206-225): a token whose `lstrip('-')`
is all digits is converted with `int(v)`; every other token stays a name.
An exception from `int(v)` propagates. -/
def parse_columns_arg : List String → Except PyExn (List ColRef)
  | [] => .ok []
  | v :: rest =>
    match
      (if pyIsdigit (lstripMinus v) then (pyIntOfString v).map ColRef.int
       else .ok (.name v)) with
    | .error e => .error e
    | .ok r =>
      match parse_columns_arg rest with
      | .error e => .error e
      | .ok rs => .ok (r :: rs)

/- A DataFrame: an ordered list of named columns, each an ordered list of
scalar cells (CSV-sourced frames have unique column labels and scalar cells;
pandas getting/setting `df[name]` is modelled on the first matching label). -/
abbrev Table := List (String × List Scalar)

/- The ordered column labels, `df.columns`. -/
def colNames (df : Table) : List String := df.map Prod.fst

/- `df.columns[c]` for an integer `c`: Python indexing accepts positions in
`[-n, n)`, resolving negative positions from the end; anything else raises
`IndexError` (caught and re-raised by the source with index and count). -/
def pdIndexGet (names : List String) (c : ℤ) : Option String :=
  if 0 ≤ c ∧ c < (names.length : ℤ) then names[c.toNat]?
  else if -(names.length : ℤ) ≤ c ∧ c < 0 then
    names[((names.length : ℤ) + c).toNat]?
  else none

/- Resolution of one column reference (source lines 179-195): an integer is a
position into `df.columns`; a string must be a present column name, else
`KeyError` naming it and the first five available columns. -/
def resolveRef (names : List String) : ColRef → Except PyExn String
  | .int c =>
    match pdIndexGet names c with
    | some nm => .ok nm
    | none => .error (.indexError c names.length)
  | .name s => if s ∈ names then .ok s else .error (.keyError s (names.take 5))

/- The resolution loop: references in caller order, first failure aborts. -/
def resolveAll (names : List String) : List ColRef → Except PyExn (List String)
  | [] => .ok []
  | c :: rest =>
    match resolveRef names c with
    | .error e => .error e
    | .ok nm =>
      match resolveAll names rest with
      | .error e => .error e
      | .ok nms => .ok (nm :: nms)

/- A Boolean validity test for one reference, used to state hypotheses. -/
def validRefB (names : List String) : ColRef → Bool
  | .int c => decide (-(names.length : ℤ) ≤ c ∧ c < (names.length : ℤ))
  | .name s => decide (s ∈ names)

/- `df[name].apply(anystring_to_float)` on one column's cells.  The error arm
is unreachable: by `anystring_scalar_ok` the parser never raises on a scalar
cell (the arm mirrors that an exception would otherwise propagate). -/
def applyCol (cs : List Scalar) : List Scalar :=
  cs.map fun x =>
    match anystring_to_float (.scalar x) with
    | .ok r => .float r
    | .error _ => .float .nan

/- `df[name] = df[name].apply(anystring_to_float)`: replace the cells of the
first column labelled `name` (unique under CSV labels). -/
def setColApply : Table → String → Table
  | [], _ => []
  | (n, cs) :: rest, nm =>
    if n = nm then (n, applyCol cs) :: rest
    else (n, cs) :: setColApply rest nm

/- Value-level `change_df` (source lines 133-203): resolve every reference
first; only then convert each resolved column in order.  The returned table is
the one the caller receives (copy-vs-mutate aliasing is `change_df_call`). -/
def change_dfV (df : Table) (cols : List ColRef) : Except PyExn Table :=
  match resolveAll (colNames df) cols with
  | .error e => .error e
  | .ok names => .ok (names.foldl setColApply df)

/- `change_df` with object identity made explicit: tables live in a store of
table objects and `r` is the caller's reference.  With `inplace=False` the
source first allocates `df.copy()` (a fresh object) and works on it; with
`inplace=True` it works on the caller's object.  On a resolution error the
exception propagates before any column assignment has run, so the store holds
what was mutated so far — nothing. -/
def change_df_call (store : List Table) (r : ℕ) (cols : List ColRef)
    (inplace : Bool) : List Table × Except PyExn ℕ :=
  let dr := if inplace then r else store.length
  let store1 := if inplace then store else store ++ [store.getD r []]
  match change_dfV (store1.getD dr []) cols with
  | .error e => (store1, .error e)
  | .ok t => (store1.set dr t, .ok dr)

/- The table with every column named in `ns` parsed cell-by-cell and every
other column untouched (the normal form `change_df` produces). -/
def normParsed (df : Table) (ns : List String) : Table :=
  df.map fun p =>
    if p.1 ∈ ns then (p.1, p.2.map fun x => Scalar.float (scalarFloat x))
    else p

/- Stability of a table's cells under re-parsing: parsing the float produced
for a cell gives that float back (true for plain-decimal reprs, false for
scientific notation). -/
def stableCells (df : Table) : Prop :=
  ∀ p ∈ df, ∀ x ∈ p.2, scalarFloat (.float (scalarFloat x)) = scalarFloat x

instance (df : Table) : Decidable (stableCells df) :=
  decidable_of_iff
    (∀ p ∈ df, ∀ x ∈ p.2,
      scalarFloat (.float (scalarFloat x)) = scalarFloat x) Iff.rfl

/- The 310-digit string 1 followed by 309 zeros; its value 10^309 exceeds the
double range. -/
def hugeDigits : String := String.mk ('1' :: List.replicate 309 '0')

/-- C1: the claim says `anystring_to_float` never raises for any input,
including arbitrary objects.  The code violates this: for a two-element list,
`pd.isna(value)` returns a two-element boolean array, and the `if` statement's
truth test of that array raises `ValueError`.  This theorem evaluates the code
at the failing input `[1, 2]`. -/
theorem C1_list_input_raises :
    anystring_to_float (.list [.int 1, .int 2]) = .error .valueError := rfl

/-- C2 counterexample: the claim says `parse("12.3.4")` returns 123.4.  In the
code the second decimal point is dropped but the following digit 4 is still
appended, so the buffer is "12.34" and the result is 12.34, not 123.4. -/
theorem C2_counterexample :
    anystring_to_float (.scalar (.str "12.3.4")) = .ok (.finite 1234 (-2)) ∧
      (PyFloat.finite 1234 (-2) : PyFloat) ≠ .finite 1234 (-1) := by
  exact ⟨by decide, by decide⟩

/-- C2 amended: `parse("12.3.4")` yields 12.34 — the first decimal point is
kept, the second is discarded, and the digits after it are still appended. -/
theorem C2_first_point_kept :
    anystring_to_float (.scalar (.str "12.3.4")) = .ok (.finite 1234 (-2)) := by
  decide

/-- C3 counterexample: the claim says the result is always a finite float or
Missing.  For the input "1" followed by 309 zeros the cleaned buffer is a
310-digit string whose value 10^309 exceeds the double range, and `float()`
returns positive infinity — the result is an infinity, not finite and not
Missing. -/
theorem C3_counterexample :
    anystring_to_float (.scalar (.str hugeDigits)) = .ok (.inf false) := by
  decide

/-- C3 amended: for every scalar input the parser returns normally, and the
result is a float in the single Missing channel or an ordinary float — NaN
(Missing), a finite value, or (only for inputs whose digit string overflows
the double range) an infinity; no other sentinel exists. -/
theorem C3_scalar_total :
    ∀ x : Scalar, ∃ r, anystring_to_float (.scalar x) = .ok r ∧
      (r = .nan ∨ (∃ m e, r = .finite m e) ∨ ∃ b, r = .inf b) := by
  intro x
  refine ⟨scalarFloat x, anystring_scalar_ok x, ?_⟩
  rcases scalarFloat x with _ | b | ⟨m, e⟩
  · exact Or.inl rfl
  · exact Or.inr (Or.inr ⟨b, rfl⟩)
  · exact Or.inr (Or.inl ⟨m, e, rfl⟩)

/-- C9: the nine quoted examples of the Scalar Parser, evaluated on the code:
23.5 for "23.5 °C", Missing for "--", 1200.0 for "1200M", -42.7 for "-42.7",
Missing for None, "", "." and "-.", and 53.0 for "5-3" (the minus after a
digit is discarded, not treated as a sign). -/
theorem C9_examples :
    anystring_to_float (.scalar (.str "23.5 °C")) = .ok (.finite 235 (-1)) ∧
    anystring_to_float (.scalar (.str "--")) = .ok .nan ∧
    anystring_to_float (.scalar (.str "1200M")) = .ok (.finite 12 2) ∧
    anystring_to_float (.scalar (.str "-42.7")) = .ok (.finite (-427) (-1)) ∧
    anystring_to_float (.scalar .pyNone) = .ok .nan ∧
    anystring_to_float (.scalar (.str "")) = .ok .nan ∧
    anystring_to_float (.scalar (.str ".")) = .ok .nan ∧
    anystring_to_float (.scalar (.str "-.")) = .ok .nan ∧
    anystring_to_float (.scalar (.str "5-3")) = .ok (.finite 53 0) := by
  refine ⟨by decide, by decide, by decide, by decide, by decide, by decide,
    by decide, by decide, by decide⟩

theorem applyCol_eq (cs : List Scalar) :
    applyCol cs = cs.map (fun x => Scalar.float (scalarFloat x)) := by
  simp [applyCol, anystring_scalar_ok]

theorem colNames_setColApply (df : Table) (nm : String) :
    colNames (setColApply df nm) = colNames df := by
  induction df with
  | nil => rfl
  | cons p rest ih =>
    obtain ⟨n, cs⟩ := p
    by_cases h : n = nm <;> simp [setColApply, h, colNames] at ih ⊢
    exact ih

theorem lens_setColApply (df : Table) (nm : String) :
    (setColApply df nm).map (fun p => p.2.length) =
      df.map (fun p => p.2.length) := by
  induction df with
  | nil => rfl
  | cons p rest ih =>
    obtain ⟨n, cs⟩ := p
    by_cases h : n = nm <;> simp [setColApply, h, applyCol_eq]
    exact ih

theorem normParsed_nil (df : Table) : normParsed df [] = df := by
  simp [normParsed]

theorem normParsed_of_disjoint (df : Table) (ns : List String)
    (h : ∀ p ∈ df, p.1 ∉ ns) : normParsed df ns = df := by
  unfold normParsed
  have : ∀ p ∈ df,
      (if p.1 ∈ ns then
        (p.1, p.2.map fun x => Scalar.float (scalarFloat x)) else p) = p := by
    intro p hp
    simp [h p hp]
  rw [List.map_congr_left this]
  simp

theorem colNames_normParsed (df : Table) (ns : List String) :
    colNames (normParsed df ns) = colNames df := by
  unfold colNames normParsed
  rw [List.map_map]
  refine List.map_congr_left ?_
  intro p _
  by_cases h : p.1 ∈ ns <;> simp [h]

theorem setColApply_eq_norm (df : Table) (nm : String)
    (hnd : (colNames df).Nodup) : setColApply df nm = normParsed df [nm] := by
  induction df with
  | nil => rfl
  | cons p rest ih =>
    obtain ⟨n, cs⟩ := p
    have hnd2 :=
      List.nodup_cons.mp (show (n :: colNames rest).Nodup from hnd)
    by_cases h : n = nm
    · subst h
      have hdisj : ∀ q ∈ rest, q.1 ∉ [n] := by
        intro q hq
        simp only [List.mem_singleton]
        intro hqn
        exact hnd2.1 (by simpa [colNames, hqn] using List.mem_map_of_mem Prod.fst hq)
      simp [setColApply, normParsed, applyCol_eq]
      have := normParsed_of_disjoint rest [n] hdisj
      simpa [normParsed] using this.symm
    · simp [setColApply, h, normParsed, Ne.symm h]
      have := ih hnd2.2
      simpa [normParsed] using this

theorem stableCells_normParsed (df : Table) (ns : List String)
    (hst : stableCells df) : stableCells (normParsed df ns) := by
  intro p hp x hx
  unfold normParsed at hp
  obtain ⟨q, hq, hpq⟩ := List.mem_map.mp hp
  by_cases h : q.1 ∈ ns
  · rw [if_pos h] at hpq
    subst hpq
    simp only at hx
    obtain ⟨y, hy, hxy⟩ := List.mem_map.mp hx
    subst hxy
    have h1 := hst q hq y hy
    rw [h1]
    exact h1
  · rw [if_neg h] at hpq
    subst hpq
    exact hst q hq x hx

theorem normParsed_comp (df : Table) (l1 l2 : List String)
    (hst : stableCells df) :
    normParsed (normParsed df l1) l2 = normParsed df (l1 ++ l2) := by
  unfold normParsed
  rw [List.map_map]
  refine List.map_congr_left ?_
  intro p hp
  by_cases h1 : p.1 ∈ l1 <;> by_cases h2 : p.1 ∈ l2 <;>
    simp [h1, h2, Function.comp, List.map_map]
  -- doubly targeted column: the second parse collapses by stability
  exact hst p hp

theorem normParsed_mem_congr (df : Table) (l1 l2 : List String)
    (h : ∀ a, a ∈ l1 ↔ a ∈ l2) : normParsed df l1 = normParsed df l2 := by
  unfold normParsed
  refine List.map_congr_left ?_
  intro p _
  by_cases h1 : p.1 ∈ l1
  · rw [if_pos h1, if_pos ((h p.1).mp h1)]
  · rw [if_neg h1, if_neg (fun hc => h1 ((h p.1).mpr hc))]

theorem foldl_colNames (ns : List String) (df : Table) :
    colNames (ns.foldl setColApply df) = colNames df := by
  induction ns generalizing df with
  | nil => rfl
  | cons nm l ih => rw [List.foldl_cons, ih, colNames_setColApply]

theorem foldl_lens (ns : List String) (df : Table) :
    (ns.foldl setColApply df).map (fun p => p.2.length) =
      df.map (fun p => p.2.length) := by
  induction ns generalizing df with
  | nil => rfl
  | cons nm l ih => rw [List.foldl_cons, ih, lens_setColApply]

theorem foldl_setColApply_nodup (ns : List String) (df : Table)
    (hnd : (colNames df).Nodup) (hns : ns.Nodup) :
    ns.foldl setColApply df = normParsed df ns := by
  induction ns generalizing df with
  | nil => simpa using (normParsed_nil df).symm
  | cons nm l ih =>
    have hl := List.nodup_cons.mp hns
    rw [List.foldl_cons, setColApply_eq_norm df nm hnd,
      ih (normParsed df [nm]) (by rw [colNames_normParsed]; exact hnd) hl.2]
    -- compose the two passes: nm is not re-targeted (nm ∉ l)
    unfold normParsed
    rw [List.map_map]
    refine List.map_congr_left ?_
    intro p _
    by_cases h1 : p.1 = nm <;> by_cases h2 : p.1 ∈ l <;>
      simp [h1, h2, Function.comp, hl.1]

theorem foldl_setColApply_stable (ns : List String) (df : Table)
    (hnd : (colNames df).Nodup) (hst : stableCells df) :
    ns.foldl setColApply df = normParsed df ns := by
  induction ns generalizing df with
  | nil => simpa using (normParsed_nil df).symm
  | cons nm l ih =>
    rw [List.foldl_cons, setColApply_eq_norm df nm hnd,
      ih (normParsed df [nm]) (by rw [colNames_normParsed]; exact hnd)
        (stableCells_normParsed df [nm] hst),
      normParsed_comp df [nm] l hst]
    rfl

theorem resolveRef_ok_of_valid (names : List String) (c : ColRef)
    (h : validRefB names c = true) : ∃ nm, resolveRef names c = .ok nm := by
  cases c with
  | int k =>
    simp only [validRefB, decide_eq_true_eq] at h
    by_cases h0 : 0 ≤ k ∧ k < (names.length : ℤ)
    · have hlt : k.toNat < names.length := by omega
      cases hg : names[k.toNat]? with
      | none =>
        exfalso
        have := List.getElem?_eq_none_iff.mp hg
        omega
      | some nm => exact ⟨nm, by simp [resolveRef, pdIndexGet, h0, hg]⟩
    · have h1 : -(names.length : ℤ) ≤ k ∧ k < 0 := by omega
      have hlt : ((names.length : ℤ) + k).toNat < names.length := by omega
      cases hg : names[((names.length : ℤ) + k).toNat]? with
      | none =>
        exfalso
        have := List.getElem?_eq_none_iff.mp hg
        omega
      | some nm => exact ⟨nm, by simp [resolveRef, pdIndexGet, h0, h1, hg]⟩
  | name s =>
    simp only [validRefB, decide_eq_true_eq] at h
    exact ⟨s, by simp [resolveRef, h]⟩

theorem resolveRef_err_of_invalid (names : List String) (c : ColRef)
    (h : validRefB names c = false) : ∃ e, resolveRef names c = .error e := by
  cases c with
  | int k =>
    simp only [validRefB, decide_eq_false_iff_not, not_and, not_lt] at h
    refine ⟨.indexError k names.length, ?_⟩
    have h0 : ¬(0 ≤ k ∧ k < (names.length : ℤ)) := by omega
    have h1 : ¬(-(names.length : ℤ) ≤ k ∧ k < 0) := by omega
    simp [resolveRef, pdIndexGet, h0, h1]
  | name s =>
    simp only [validRefB, decide_eq_false_iff_not] at h
    exact ⟨.keyError s (names.take 5), by simp [resolveRef, h]⟩

theorem resolveRef_int_out (names : List String) (k : ℤ)
    (h : k < -(names.length : ℤ) ∨ (names.length : ℤ) ≤ k) :
    resolveRef names (.int k) = .error (.indexError k names.length) := by
  have h0 : ¬(0 ≤ k ∧ k < (names.length : ℤ)) := by omega
  have h1 : ¬(-(names.length : ℤ) ≤ k ∧ k < 0) := by omega
  simp [resolveRef, pdIndexGet, h0, h1]

theorem resolveAll_ok_of_valid (names : List String) (cols : List ColRef)
    (h : ∀ c ∈ cols, validRefB names c = true) :
    ∃ ns, resolveAll names cols = .ok ns := by
  induction cols with
  | nil => exact ⟨[], rfl⟩
  | cons c rest ih =>
    obtain ⟨nm, hnm⟩ := resolveRef_ok_of_valid names c (h c (by simp))
    obtain ⟨ns, hns⟩ := ih (fun d hd => h d (by simp [hd]))
    exact ⟨nm :: ns, by simp [resolveAll, hnm, hns]⟩

theorem resolveAll_err_of_invalid (names : List String) (cols : List ColRef)
    (h : ∃ c ∈ cols, validRefB names c = false) :
    ∃ e, resolveAll names cols = .error e := by
  induction cols with
  | nil => simp at h
  | cons c rest ih =>
    cases hr : resolveRef names c with
    | error e => exact ⟨e, by simp [resolveAll, hr]⟩
    | ok nm =>
      obtain ⟨d, hd, hdv⟩ := h
      rcases List.mem_cons.mp hd with hdc | hdr
      · subst hdc
        obtain ⟨e, he⟩ := resolveRef_err_of_invalid names d hdv
        rw [hr] at he
        exact absurd he (by simp)
      · obtain ⟨e, he⟩ := ih ⟨d, hdr, hdv⟩
        exact ⟨e, by simp [resolveAll, hr, he]⟩

theorem resolveAll_append (names : List String) (l1 l2 : List ColRef)
    (ns1 ns2 : List String) (h1 : resolveAll names l1 = .ok ns1)
    (h2 : resolveAll names l2 = .ok ns2) :
    resolveAll names (l1 ++ l2) = .ok (ns1 ++ ns2) := by
  induction l1 generalizing ns1 with
  | nil =>
    simp only [resolveAll] at h1
    cases h1
    simpa using h2
  | cons c rest ih =>
    simp only [resolveAll] at h1 ⊢
    cases hr : resolveRef names c with
    | error e => rw [hr] at h1; exact absurd h1 (by simp)
    | ok nm =>
      rw [hr] at h1
      cases hrest : resolveAll names rest with
      | error e => rw [hrest] at h1; exact absurd h1 (by simp)
      | ok ns =>
        rw [hrest] at h1
        cases h1
        simp [List.cons_append, resolveAll, hr, ih ns hrest]

/-- C10: the claim says every token that is not digits-with-one-optional-minus
becomes a String name and the tokenizer never fails.  The code contradicts its
own docstring ("everything else as column names"): `"--5".lstrip('-')` strips
ALL leading minuses, the digit test passes, and `int("--5")` raises
`ValueError`.  Tokens "-" and "-5" behave as documented; "--5" crashes. -/
theorem C10_tokenizer_crashes :
    parse_columns_arg ["-"] = .ok [.name "-"] ∧
    parse_columns_arg ["-5"] = .ok [.int (-5)] ∧
    parse_columns_arg ["--5"] = .error .valueError := by
  refine ⟨by decide, by decide, by decide⟩

/-- C4 counterexample: the claim says every negative integer reference fails
with an Out-of-Range error.  It does not: `df.columns[-1]` is ordinary Python
indexing, so on a two-column table the reference -1 silently resolves to the
last column "B" and coercion succeeds. -/
theorem C4_counterexample :
    change_dfV [("A", [.str "7"]), ("B", [.str "8"])] [.int (-1)] =
      .ok [("A", [.str "7"]), ("B", [.float (.finite 8 0)])] := by
  decide

/-- C4 amended: an integer reference outside [-n, n) (n = column count) makes
Column Coercion fail with the Out-of-Range error carrying the offending index
and the column count; it is never silently accepted.  References in [-n, 0)
are accepted Python-style, resolving from the end (see the counterexample). -/
theorem C4_out_of_range_fails (df : Table) (c : ℤ)
    (h : c < -((colNames df).length : ℤ) ∨ ((colNames df).length : ℤ) ≤ c) :
    change_dfV df [.int c] = .error (.indexError c (colNames df).length) := by
  simp [change_dfV, resolveAll, resolveRef_int_out (colNames df) c h]

theorem C4_out_of_range_fails_witness :
    change_dfV [("A", [.str "7"]), ("B", [.str "8"])] [.int 5] =
      .error (.indexError 5 2) :=
  C4_out_of_range_fails [("A", [.str "7"]), ("B", [.str "8"])] 5
    (Or.inr (by decide))

/-- C5: a reference sequence containing an invalid reference makes `change_df`
raise during resolution, before the conversion loop runs: with `inplace=True`
the caller's table object is entirely unchanged after the failed call
(all-or-nothing), even when the invalid reference follows valid ones. -/
theorem C5_all_or_nothing (df : Table) (cols : List ColRef)
    (h : ∃ c ∈ cols, validRefB (colNames df) c = false) :
    (change_df_call [df] 0 cols true).1 = [df] ∧
      ∃ e, (change_df_call [df] 0 cols true).2 = .error e := by
  obtain ⟨e, he⟩ := resolveAll_err_of_invalid (colNames df) cols h
  have hv : change_dfV df cols = .error e := by simp [change_dfV, he]
  exact ⟨by simp [change_df_call, hv], e, by simp [change_df_call, hv]⟩

theorem C5_all_or_nothing_witness :
    (change_df_call [[("A", [.str "1"]), ("B", [.str "2"])]] 0
        [.name "A", .int 5] true).1 = [[("A", [.str "1"]), ("B", [.str "2"])]] ∧
      ∃ e, (change_df_call [[("A", [.str "1"]), ("B", [.str "2"])]] 0
        [.name "A", .int 5] true).2 = .error e :=
  C5_all_or_nothing [("A", [.str "1"]), ("B", [.str "2"])] [.name "A", .int 5]
    (by decide)

/-- C6 counterexample: coercion is not idempotent and a duplicated reference is
not harmless.  The cell "0.00001" parses to 1e-05, whose Python string form is
the scientific-notation "1e-05"; re-parsing that string keeps only the digits
1, 0, 5 and yields 105.0.  Hence coerce with ["A", "A"] differs from coerce
with ["A"], and coercing the once-coerced table again changes it. -/
theorem C6_counterexample :
    change_dfV [("A", [.str "0.00001"])] [.name "A", .name "A"] ≠
        change_dfV [("A", [.str "0.00001"])] [.name "A"] ∧
      change_dfV [("A", [.str "0.00001"])] [.name "A"] =
        .ok [("A", [.float (.finite 1 (-5))])] ∧
      change_dfV [("A", [.float (.finite 1 (-5))])] [.name "A"] =
        .ok [("A", [.float (.finite 105 0)])] := by
  refine ⟨by decide, by decide, by decide⟩

/-- C6 amended: on a table with unique column labels all of whose cells have
stable parses — re-parsing the string form of a cell's parsed float gives the
same float back, which holds for plain-decimal string forms but fails for
scientific notation (see the counterexample) — coercion is idempotent: a
second pass over the same columns returns the same table unchanged, and a
duplicated reference list behaves like the single list; Missing cells stay
Missing. -/
theorem C6_idempotent_on_stable (df : Table) (cols : List ColRef)
    (hv : ∀ c ∈ cols, validRefB (colNames df) c = true)
    (hnd : (colNames df).Nodup) (hst : stableCells df) :
    ∃ t, change_dfV df cols = .ok t ∧ change_dfV t cols = .ok t ∧
      change_dfV df (cols ++ cols) = .ok t := by
  obtain ⟨ns, hns⟩ := resolveAll_ok_of_valid (colNames df) cols hv
  have ht : ns.foldl setColApply df = normParsed df ns :=
    foldl_setColApply_stable ns df hnd hst
  have hcn : colNames (normParsed df ns) = colNames df :=
    colNames_normParsed df ns
  have hsecond :
      ns.foldl setColApply (normParsed df ns) = normParsed df ns := by
    rw [foldl_setColApply_stable ns (normParsed df ns)
        (by rw [hcn]; exact hnd) (stableCells_normParsed df ns hst),
      normParsed_comp df ns ns hst]
    exact normParsed_mem_congr df (ns ++ ns) ns (by simp)
  refine ⟨normParsed df ns, ?_, ?_, ?_⟩
  · simp [change_dfV, hns, ht]
  · simp [change_dfV, hcn, hns, hsecond]
  · have happ : resolveAll (colNames df) (cols ++ cols) = .ok (ns ++ ns) :=
      resolveAll_append (colNames df) cols cols ns ns hns hns
    simp [change_dfV, happ, List.foldl_append, ht, hsecond]

theorem C6_idempotent_on_stable_witness :
    ∃ t, change_dfV [("A", [.str "23.5C", .str "--"]), ("B", [.int 3])]
        [.name "A"] = .ok t ∧
      change_dfV t [.name "A"] = .ok t ∧
      change_dfV [("A", [.str "23.5C", .str "--"]), ("B", [.int 3])]
        ([.name "A"] ++ [.name "A"]) = .ok t :=
  C6_idempotent_on_stable [("A", [.str "23.5C", .str "--"]), ("B", [.int 3])]
    [.name "A"] (by decide) (by decide) (by decide)

/-- C7: for a valid column set, `change_df` with `inplace=False` (the default)
does all work on a freshly allocated copy: the caller's table object (slot 0)
still holds the original table and the returned reference is the new object
(slot 1) holding the coerced table; with `inplace=True` the caller's own
object is mutated to the coerced table and that same object (slot 0) is
returned. -/
theorem C7_copy_vs_inplace (df : Table) (cols : List ColRef)
    (hv : ∀ c ∈ cols, validRefB (colNames df) c = true) :
    ∃ t, change_dfV df cols = .ok t ∧
      change_df_call [df] 0 cols false = ([df, t], .ok 1) ∧
      change_df_call [df] 0 cols true = ([t], .ok 0) := by
  obtain ⟨ns, hns⟩ := resolveAll_ok_of_valid (colNames df) cols hv
  have hv2 : change_dfV df cols = .ok (ns.foldl setColApply df) := by
    simp [change_dfV, hns]
  refine ⟨ns.foldl setColApply df, hv2, ?_, ?_⟩
  · simp [change_df_call, hv2, List.set]
  · simp [change_df_call, hv2, List.set]

theorem C7_copy_vs_inplace_witness :
    ∃ t, change_dfV [("A", [.str "23.5 °C"]), ("B", [.int 1])]
        [.name "A"] = .ok t ∧
      change_df_call [[("A", [.str "23.5 °C"]), ("B", [.int 1])]] 0
        [.name "A"] false = ([[("A", [.str "23.5 °C"]), ("B", [.int 1])], t],
          .ok 1) ∧
      change_df_call [[("A", [.str "23.5 °C"]), ("B", [.int 1])]] 0
        [.name "A"] true = ([t], .ok 0) :=
  C7_copy_vs_inplace [("A", [.str "23.5 °C"]), ("B", [.int 1])] [.name "A"]
    (by decide)

/-- C8: for a valid column set, the coerced table keeps the input's column
labels in order (hence the column count), and every column keeps its cell
count (hence the row count, with row order preserved by the cell-wise map);
when the labels are unique and the resolved reference list has no duplicates,
the result is exactly the input with each targeted column's cells replaced by
their Scalar Parser results and every other column untouched. -/
theorem C8_shape_invariants (df : Table) (cols : List ColRef)
    (hv : ∀ c ∈ cols, validRefB (colNames df) c = true) :
    ∃ ns t, resolveAll (colNames df) cols = .ok ns ∧
      change_dfV df cols = .ok t ∧
      colNames t = colNames df ∧
      t.length = df.length ∧
      t.map (fun p => p.2.length) = df.map (fun p => p.2.length) ∧
      ((colNames df).Nodup → ns.Nodup → t = normParsed df ns) := by
  obtain ⟨ns, hns⟩ := resolveAll_ok_of_valid (colNames df) cols hv
  refine ⟨ns, ns.foldl setColApply df, hns, by simp [change_dfV, hns],
    foldl_colNames ns df, ?_, foldl_lens ns df,
    fun h1 h2 => foldl_setColApply_nodup ns df h1 h2⟩
  have := congrArg List.length (foldl_colNames ns df)
  simpa [colNames] using this

theorem C8_shape_invariants_witness :
    ∃ ns t, resolveAll
        (colNames [("A", [.str "23.5 °C", .str "--"]), ("B", [.int 1, .int 2])])
        [.name "A", .int 1] = .ok ns ∧
      change_dfV [("A", [.str "23.5 °C", .str "--"]), ("B", [.int 1, .int 2])]
        [.name "A", .int 1] = .ok t ∧
      colNames t =
        colNames [("A", [.str "23.5 °C", .str "--"]), ("B", [.int 1, .int 2])] ∧
      t.length =
        ([("A", [.str "23.5 °C", .str "--"]), ("B", [.int 1, .int 2])] :
          Table).length ∧
      t.map (fun p => p.2.length) =
        ([("A", [.str "23.5 °C", .str "--"]), ("B", [.int 1, .int 2])] :
          Table).map (fun p => p.2.length) ∧
      ((colNames [("A", [.str "23.5 °C", .str "--"]),
          ("B", [.int 1, .int 2])]).Nodup → ns.Nodup →
        t = normParsed
          [("A", [.str "23.5 °C", .str "--"]), ("B", [.int 1, .int 2])] ns) :=
  C8_shape_invariants [("A", [.str "23.5 °C", .str "--"]), ("B", [.int 1, .int 2])]
    [.name "A", .int 1] (by decide)

end UClean
